import Mathlib

/-
Verification of `kornia/geometry/epipolar/fundamental.py` (fundamental-matrix
estimation module).

The Python module operates on batches of tensors; every branch in it is a
boolean mask over the batch dimension, and the batch elements are fully
independent (masked scatter into a preallocated zero result).  The shallow
embedding therefore models each operation elementwise over exact real numbers
(`ℝ`), with the batched form as a `List.map` of the elementwise form.

Non-finite IEEE values are the one place where exact reals diverge from the
source: `0.5 / 0.0` is `inf` and `torch.pow` of a negative base with a
fractional exponent is `NaN`.  Where a claim depends on finiteness, the
embedding wraps the affected value in `Option ℝ`, with `none` standing for a
non-finite float; all finite arithmetic is embedded exactly.
-/

namespace Kornia

/-! ## solve_quadratic (fundamental.py lines 75-118) -/

/-- Elementwise form of `solve_quadratic` (one batch element, coefficients
`a*x^2 + b*x + c`).  The source initializes the solution row to zeros, writes
zeros again under the `delta < 0` mask, leaves the `delta == 0` rows untouched,
and writes `(-b ± sqrt delta) * (0.5 / a)` under the `delta > 0` mask. -/
noncomputable def solve_quadratic1 (a b c : ℝ) : ℝ × ℝ :=
  let delta := b * b - 4 * a * c
  let inv_2a := 0.5 / a
  if delta < 0 then (0, 0)
  else if delta = 0 then (0, 0)
  else ((-b + Real.sqrt delta) * inv_2a, (-b - Real.sqrt delta) * inv_2a)

/-- Batched `solve_quadratic`: the masked scatter treats batch elements
independently, so it is the elementwise map. -/
noncomputable def solve_quadratic (coeffs : List (ℝ × ℝ × ℝ)) : List (ℝ × ℝ) :=
  coeffs.map fun t => solve_quadratic1 t.1 t.2.1 t.2.2

/-- Finiteness-tracking form of `solve_quadratic`.  `inv_2a = 0.5 / a` is
computed unconditionally in the source; for `a = 0` it is the non-finite float
`inf`, but it is only consumed in the `delta > 0` branch, where the roots
`(-b ± sqrt delta) * inf` are then non-finite (`±inf` or `NaN`).  `none`
models a non-finite result row. -/
noncomputable def solve_quadraticF (a b c : ℝ) : Option (ℝ × ℝ) :=
  let delta := b * b - 4 * a * c
  if delta < 0 then some (0, 0)
  else if delta = 0 then some (0, 0)
  else if a = 0 then none
  else some ((-b + Real.sqrt delta) * (0.5 / a), (-b - Real.sqrt delta) * (0.5 / a))

/-! ## solve_cubic (fundamental.py lines 121-234) -/

/-- Model of `torch.pow x y` for real `x` and fractional exponent `y`: `NaN`
(modelled as `none`) when the base is negative, `x ^ y` (real power) otherwise. -/
noncomputable def torch_pow (x y : ℝ) : Option ℝ :=
  if x < 0 then none else some (x ^ y)

/-- Elementwise form of `solve_cubic` (one batch element, coefficients
`a*x^3 + b*x^2 + c*x + d`).  The masks of the source are mutually exclusive
per batch element, so they are an if-chain here; slots never written by any
mask keep their zero initialization.  The slots are `Option ℝ` because the
`Q = 0, R ≠ 0` branch computes `torch.pow (2*R) (1/3)`, which is `NaN` for
`2*R < 0`.

Mask translation (per element):
* `mask_zero_order`   : `a = 0, b = 0, c = 0` — slot 0 written with 0;
* `mask_first_order`  : `a = 0, b = 0, c ≠ 0` — slot 0 written with 1;
* `mask_second_order` : `a = 0, b ≠ 0, c ≠ 0` — slots 0-1 from `solve_quadratic`;
* `a = 0, b ≠ 0, c = 0` matches no mask (and the sentinel arrays `a_Q_zero = 1`,
  `a_R_zero = 1`, `a_D_zero = 1`, `a_D_positive = 0` keep every later mask
  false for it), so the row stays `(0, 0, 0)`;
* for `a ≠ 0` the sentinel arrays equal the true `Q`, `R`, `D`, and exactly one
  of the four depressed-cubic masks fires. -/
noncomputable def solve_cubic1 (a b c d : ℝ) : Option ℝ × Option ℝ × Option ℝ :=
  if a = 0 then
    if b = 0 then
      if c = 0 then (some 0, some 0, some 0)
      else (some 1, some 0, some 0)
    else
      if c = 0 then (some 0, some 0, some 0)
      else
        let q := solve_quadratic1 b c d
        (some q.1, some q.2, some 0)
  else
    let b_a := b / a
    let b_a2 := b_a * b_a
    let c_a := c / a
    let d_a := d / a
    let Q := (3 * c_a - b_a2) / 9
    let R := (9 * b_a * c_a - 27 * d_a - 2 * b_a * b_a2) / 54
    let Q3 := Q * Q * Q
    let D := Q3 + R * R
    let b_a_3 := (1 / 3 : ℝ) * b_a
    if Q = 0 ∧ R ≠ 0 then
      ((torch_pow (2 * R) (1 / 3)).map (fun t => t - b_a_3), some 0, some 0)
    else if Q = 0 ∧ R = 0 then
      (some (-b_a_3), some (-b_a_3), some (-b_a_3))
    else if D ≤ 0 ∧ Q ≠ 0 then
      let theta := Real.arccos (R / Real.sqrt (-Q3))
      let sqrt_Q := Real.sqrt (-Q)
      (some (2 * sqrt_Q * Real.cos (theta / 3) - b_a_3),
       some (2 * sqrt_Q * Real.cos ((theta + 2 * Real.pi) / 3) - b_a_3),
       some (2 * sqrt_Q * Real.cos ((theta + 4 * Real.pi) / 3) - b_a_3))
    else if 0 < D ∧ Q ≠ 0 then
      -- `torch.pow` is applied to `|R| + sqrt D ≥ 0` here, where it agrees
      -- with the real power.
      let AD : ℝ :=
        if 1e-16 < |R| then
          if R < 0 then -((|R| + Real.sqrt D) ^ ((1 : ℝ) / 3))
          else (|R| + Real.sqrt D) ^ ((1 : ℝ) / 3)
        else 0
      let BD : ℝ := if 1e-16 < |R| then -Q / AD else 0
      (some (AD + BD - b_a_3), some 0, some 0)
    else (some 0, some 0, some 0)

/-- Batched `solve_cubic` as the elementwise map. -/
noncomputable def solve_cubic (coeffs : List (ℝ × ℝ × ℝ × ℝ)) :
    List (Option ℝ × Option ℝ × Option ℝ) :=
  coeffs.map fun t => solve_cubic1 t.1 t.2.1 t.2.2.1 t.2.2.2

/-! ## normalize_points (fundamental.py lines 15-52) -/

/-- Centroid of a point set (`torch.mean(points, dim=1)` on one batch
element). -/
noncomputable def centroid (points : List (ℝ × ℝ)) : ℝ × ℝ :=
  ((points.map Prod.fst).sum / points.length, (points.map Prod.snd).sum / points.length)

/-- Mean Euclidean distance of the points from their centroid
(`(points - x_mean).norm(dim=-1, p=2).mean(dim=-1)` on one batch element). -/
noncomputable def meanDistCentroid (points : List (ℝ × ℝ)) : ℝ :=
  (points.map fun p =>
    Real.sqrt ((p.1 - (centroid points).1) ^ 2 + (p.2 - (centroid points).2) ^ 2)).sum
      / points.length

/-- Modelled from the spec: `transform_points` (from `kornia.geometry.linalg`,
not under src/) applies a projective 3x3 transform to a 2D point —
homogenize, multiply by the matrix, dehomogenize by the last coordinate. -/
noncomputable def transform_points (T : Matrix (Fin 3) (Fin 3) ℝ) (p : ℝ × ℝ) : ℝ × ℝ :=
  let w := T 2 0 * p.1 + T 2 1 * p.2 + T 2 2
  ((T 0 0 * p.1 + T 0 1 * p.2 + T 0 2) / w,
   (T 1 0 * p.1 + T 1 1 * p.2 + T 1 2) / w)

/-- One batch element of `normalize_points`: scale `sqrt 2 / (mean distance
from centroid + eps)`, transform rows `[scale, 0, -scale*mx]`,
`[0, scale, -scale*my]`, `[0, 0, 1]`; returns the transformed points and the
transform. -/
noncomputable def normalize_points (points : List (ℝ × ℝ)) (eps : ℝ) :
    List (ℝ × ℝ) × Matrix (Fin 3) (Fin 3) ℝ :=
  let x_mean := centroid points
  let scale := Real.sqrt 2 / (meanDistCentroid points + eps)
  let transform : Matrix (Fin 3) (Fin 3) ℝ :=
    Matrix.of ![![scale, 0, -scale * x_mean.1],
                ![0, scale, -scale * x_mean.2],
                ![0, 0, 1]]
  (points.map (transform_points transform), transform)

/-! ## normalize_transformation (fundamental.py lines 55-71) -/

/-- `normalize_transformation`: divide the whole matrix by
`(bottom-right entry + eps)` when the bottom-right entry has magnitude
greater than `eps`, otherwise return it unchanged. -/
noncomputable def normalize_transformation {m n : ℕ}
    (M : Matrix (Fin (m + 1)) (Fin (n + 1)) ℝ) (eps : ℝ) :
    Matrix (Fin (m + 1)) (Fin (n + 1)) ℝ :=
  let norm_val := M (Fin.last m) (Fin.last n)
  if eps < |norm_val| then Matrix.of fun i j => M i j / (norm_val + eps) else M

/-! ## run_7point (fundamental.py lines 238-354) -/

/-- One row of the 7-point linear system: `[x2*x1, x2*y1, x2, y2*x1, y2*y1,
y2, x1, y1, 1]` for a correspondence `p = (x1, y1)`, `q = (x2, y2)`. -/
def epipolarRow (p q : ℝ × ℝ) : List ℝ :=
  [q.1 * p.1, q.1 * p.2, q.1, q.2 * p.1, q.2 * p.2, q.2, p.1, p.2, 1]

/-- `run_7point`.  The SVD helper `_torch_svd_cast` (from
`kornia.utils.helpers`, not under src/) is an oracle parameter `svd`
returning, for the assembled system `X`, the first batch element `v[0]` of the
right-singular-vector stack, as the spec describes (columns 7 and 8 are the
null-space basis).  Fallible code returns `Except`: the shape guards model
`KORNIA_CHECK_SHAPE`.

Line 316 of the source reads `roots = solve_cubic(*coeffs)`: `coeffs` is a
4-element tensor, so the star-unpacking passes four scalar positional
arguments to `solve_cubic`, which accepts exactly one argument (a `(B, 4)`
tensor).  Control reaches this call for every well-formed input (everything
before it is total), and the call raises `TypeError`, so the function never
reaches the root-count check or the candidate-matrix loop. -/
noncomputable def run_7point
    (svd : List (List (List ℝ)) → Fin 9 → Fin 9 → ℝ)
    (points1 points2 : List (List (ℝ × ℝ))) :
    Except String (List (Matrix (Fin 3) (Fin 3) ℝ)) :=
  if points1.all (fun b => b.length == 7) then
    if points2.all (fun b => b.length == 7) then
      let norm1 := points1.map fun b => (normalize_points b 1e-8).1
      let norm2 := points2.map fun b => (normalize_points b 1e-8).1
      let X := List.zipWith (fun b1 b2 => List.zipWith epipolarRow b1 b2) norm1 norm2
      let v := svd X
      let f1 : Fin 9 → ℝ := fun j => v j 7
      let f2 : Fin 9 → ℝ := fun j => v j 8
      let t0 := f2 4 * f2 8 - f2 5 * f2 7
      let t1 := f2 3 * f2 8 - f2 5 * f2 6
      let t2 := f2 3 * f2 7 - f2 4 * f2 6
      let coeffs3 := f2 0 * t0 - f2 1 * t1 + f2 2 * t2
      let coeffs2 := f1 0 * t0 - f1 1 * t1 + f1 2 * t2
        - f1 3 * (f2 1 * f2 8 - f2 2 * f2 7)
        + f1 4 * (f2 0 * f2 8 - f2 2 * f2 6)
        - f1 5 * (f2 0 * f2 7 - f2 1 * f2 6)
        + f1 6 * (f2 1 * f2 5 - f2 2 * f2 4)
        - f1 7 * (f2 0 * f2 5 - f2 2 * f2 3)
        + f1 8 * (f2 0 * f2 4 - f2 1 * f2 3)
      let t0 := f1 4 * f1 8 - f1 5 * f1 7
      let t1 := f1 3 * f1 8 - f1 5 * f1 6
      let t2 := f1 3 * f1 7 - f1 4 * f1 6
      let coeffs1 := f2 0 * t0 - f2 1 * t1 + f2 2 * t2
        - f2 3 * (f1 1 * f1 8 - f1 2 * f1 7)
        + f2 4 * (f1 0 * f1 8 - f1 2 * f1 6)
        - f2 5 * (f1 0 * f1 7 - f1 1 * f1 6)
        + f2 6 * (f1 1 * f1 5 - f1 2 * f1 4)
        - f2 7 * (f1 0 * f1 5 - f1 2 * f1 3)
        + f2 8 * (f1 0 * f1 4 - f1 1 * f1 3)
      let coeffs0 := f1 0 * t0 - f1 1 * t1 + f1 2 * t2
      -- roots = solve_cubic(*coeffs): four positional arguments to a
      -- one-argument function; raises before any root is produced.
      Except.error "TypeError: solve_cubic() takes 1 positional argument but 4 were given"
    else Except.error "KORNIA_CHECK_SHAPE: points2 does not match [B, 7, 2]"
  else Except.error "KORNIA_CHECK_SHAPE: points1 does not match [B, 7, 2]"

/-! ## find_fundamental (fundamental.py lines 413-436) -/

/-- Which estimator `find_fundamental` invoked, and with which arguments.
The points and weights are opaque payloads of the dispatch. -/
inductive Dispatched (P W : Type) where
  | sevenPoint (points1 points2 : P)
  | eightPoint (points1 points2 : P) (weights : Option W)
  deriving DecidableEq

/-- Model of Python `str.upper` (ASCII range), used by the source as
`method.upper()`. -/
def str_upper (s : String) : String := ⟨s.data.map Char.toUpper⟩

/-- `find_fundamental`: dispatch on the upper-cased method string; `7POINT`
routes to `run_7point points1 points2`, `8POINT` to
`run_8point points1 points2 weights`, anything else raises `ValueError`. -/
def find_fundamental (P W : Type) (points1 points2 : P) (weights : Option W)
    (method : String) : Except String (Dispatched P W) :=
  if str_upper method = "7POINT" then
    Except.ok (Dispatched.sevenPoint points1 points2)
  else if str_upper method = "8POINT" then
    Except.ok (Dispatched.eightPoint points1 points2 weights)
  else
    Except.error ("ValueError: Invalid method: " ++ method
      ++ ". Supported methods are 7POINT and 8POINT.")

/-! ## Helper lemmas -/

lemma sqrt_sixteen : Real.sqrt 16 = 4 := by
  rw [show (16 : ℝ) = 4 ^ 2 by norm_num, Real.sqrt_sq (by norm_num)]

/-- Concrete quadratic `x^2 - 3x + 2`: roots 2 and 1. -/
lemma solve_quadratic1_one_neg_three_two : solve_quadratic1 1 (-3) 2 = (2, 1) := by
  simp only [solve_quadratic1]
  norm_num [Real.sqrt_one]

lemma sum_map_mul_const (l : List (ℝ × ℝ)) (s : ℝ) (f : ℝ × ℝ → ℝ) :
    (l.map fun p => s * f p).sum = s * (l.map f).sum := by
  induction l with
  | nil => simp
  | cons p t ih =>
    simp only [List.map_cons, List.sum_cons, ih]
    ring

lemma sum_map_sub_const (l : List (ℝ × ℝ)) (c : ℝ) (f : ℝ × ℝ → ℝ) :
    (l.map fun p => f p - c).sum = (l.map f).sum - l.length * c := by
  induction l with
  | nil => simp
  | cons p t ih =>
    simp only [List.map_cons, List.sum_cons, ih, List.length_cons]
    push_cast
    ring

/-- The transform built by `normalize_points` acts on a point as the affine
map `p ↦ scale * (p - x_mean)`. -/
lemma transform_points_affine (s mx my : ℝ) (p : ℝ × ℝ) :
    transform_points
        (Matrix.of ![![s, 0, -s * mx], ![0, s, -s * my], ![0, 0, 1]]) p
      = (s * (p.1 - mx), s * (p.2 - my)) := by
  show ((s * p.1 + 0 * p.2 + -s * mx) / (0 * p.1 + 0 * p.2 + 1),
        (0 * p.1 + s * p.2 + -s * my) / (0 * p.1 + 0 * p.2 + 1))
      = (s * (p.1 - mx), s * (p.2 - my))
  have hw : (0 : ℝ) * p.1 + 0 * p.2 + 1 = 1 := by ring
  rw [hw, div_one, div_one, Prod.mk.injEq]
  constructor <;> ring

/-- The normalized points are `scale * (p - centroid)`, elementwise. -/
lemma normalize_points_fst (points : List (ℝ × ℝ)) (eps : ℝ) :
    (normalize_points points eps).1 =
      points.map fun p =>
        (Real.sqrt 2 / (meanDistCentroid points + eps) * (p.1 - (centroid points).1),
         Real.sqrt 2 / (meanDistCentroid points + eps) * (p.2 - (centroid points).2)) := by
  simp only [normalize_points]
  exact List.map_congr_left fun p _ => transform_points_affine _ _ _ p

lemma map_fst_pairs (l : List (ℝ × ℝ)) (g h : ℝ × ℝ → ℝ) :
    List.map Prod.fst (l.map fun p => (g p, h p)) = l.map g := by
  induction l with
  | nil => rfl
  | cons p t ih => simp [ih]

lemma map_snd_pairs (l : List (ℝ × ℝ)) (g h : ℝ × ℝ → ℝ) :
    List.map Prod.snd (l.map fun p => (g p, h p)) = l.map h := by
  induction l with
  | nil => rfl
  | cons p t ih => simp [ih]

/-- Scaling all deviations from the list mean sums to zero. -/
lemma sum_map_center (l : List (ℝ × ℝ)) (s : ℝ) (g : ℝ × ℝ → ℝ) :
    (l.map fun p => s * (g p - (l.map g).sum / l.length)).sum = 0 := by
  rcases Nat.eq_zero_or_pos l.length with h0 | h0
  · rw [List.length_eq_zero] at h0
    subst h0
    rfl
  · have hN : (l.length : ℝ) ≠ 0 := Nat.cast_ne_zero.2 h0.ne'
    rw [show (fun p => s * (g p - (l.map g).sum / l.length))
        = fun p => s * ((fun q => g q - (l.map g).sum / l.length) p) from rfl,
      sum_map_mul_const, sum_map_sub_const, mul_div_cancel₀ _ hN]
    simp

/-- The centroid of the normalized points is exactly the origin. -/
lemma centroid_normalized (points : List (ℝ × ℝ)) (eps : ℝ) :
    centroid ((normalize_points points eps).1) = (0, 0) := by
  rw [normalize_points_fst]
  simp only [centroid, List.length_map]
  rw [map_fst_pairs, map_snd_pairs,
    sum_map_center points (Real.sqrt 2 / (meanDistCentroid points + eps)) Prod.fst,
    sum_map_center points (Real.sqrt 2 / (meanDistCentroid points + eps)) Prod.snd,
    zero_div]

/-- Distances of isotropically scaled deviations: each normalized point sits
at `scale` times its original distance from the centroid. -/
lemma map_sqrt_scaled (l : List (ℝ × ℝ)) (s mx my : ℝ) (hs : 0 ≤ s) :
    (l.map fun p => (s * (p.1 - mx), s * (p.2 - my))).map
        (fun q => Real.sqrt (q.1 ^ 2 + q.2 ^ 2))
      = l.map fun p => s * Real.sqrt ((p.1 - mx) ^ 2 + (p.2 - my) ^ 2) := by
  induction l with
  | nil => rfl
  | cons p t ih =>
    simp only [List.map_cons, ih, List.cons.injEq]
    refine ⟨?_, trivial⟩
    rw [show (s * (p.1 - mx)) ^ 2 + (s * (p.2 - my)) ^ 2
        = s ^ 2 * ((p.1 - mx) ^ 2 + (p.2 - my) ^ 2) by ring,
      Real.sqrt_mul (sq_nonneg s), Real.sqrt_sq hs]

/-- The mean distance from the centroid of the normalized points equals
`sqrt 2 * sigma / (sigma + eps)` where `sigma` is the original mean
distance. -/
lemma meanDist_normalized (points : List (ℝ × ℝ)) (eps : ℝ)
    (hpos : 0 < meanDistCentroid points + eps) :
    meanDistCentroid ((normalize_points points eps).1)
      = Real.sqrt 2 * meanDistCentroid points / (meanDistCentroid points + eps) := by
  have hs : 0 ≤ Real.sqrt 2 / (meanDistCentroid points + eps) :=
    div_nonneg (Real.sqrt_nonneg 2) hpos.le
  have hc := centroid_normalized points eps
  show (((normalize_points points eps).1).map fun q =>
      Real.sqrt ((q.1 - (centroid ((normalize_points points eps).1)).1) ^ 2
        + (q.2 - (centroid ((normalize_points points eps).1)).2) ^ 2)).sum
      / ((normalize_points points eps).1).length
    = Real.sqrt 2 * meanDistCentroid points / (meanDistCentroid points + eps)
  rw [hc, normalize_points_fst]
  simp only [List.length_map, sub_zero]
  rw [map_sqrt_scaled points _ (centroid points).1 (centroid points).2 hs,
    sum_map_mul_const, mul_div_assoc]
  show Real.sqrt 2 / (meanDistCentroid points + eps) * meanDistCentroid points
    = Real.sqrt 2 * meanDistCentroid points / (meanDistCentroid points + eps)
  ring

/-! ## Claim theorems -/

/-- C4: for every batch element of `solve_quadratic` whose discriminant
`delta = b^2 - 4*a*c` is negative or zero, both returned roots are the
sentinel 0, and nothing else is written for that element. -/
theorem solve_quadratic_nonpos_disc_roots_zero (a b c : ℝ)
    (h : b * b - 4 * a * c < 0 ∨ b * b - 4 * a * c = 0) :
    solve_quadratic1 a b c = (0, 0) := by
  rcases h with h | h
  · simp only [solve_quadratic1, if_pos h]
  · simp only [solve_quadratic1, h]
    norm_num

/-- Witness for C4 at the spec example `solve_quadratic([1,2,5])`
(discriminant -16). -/
theorem solve_quadratic_nonpos_disc_roots_zero_witness :
    ((2 : ℝ) * 2 - 4 * 1 * 5 < 0 ∨ (2 : ℝ) * 2 - 4 * 1 * 5 = 0) ∧
      solve_quadratic1 1 2 5 = (0, 0) :=
  ⟨Or.inl (by norm_num),
   solve_quadratic_nonpos_disc_roots_zero 1 2 5 (Or.inl (by norm_num))⟩

/-- C5: for `a ≠ 0` and positive discriminant the two roots are
`(-b ± sqrt delta) / (2a)`; in particular on coefficients `(1, -3, 2)` the
solver returns the roots `(2, 1)`. -/
theorem solve_quadratic_pos_disc_roots (a b c : ℝ) (ha : a ≠ 0)
    (h : 0 < b * b - 4 * a * c) :
    solve_quadratic1 a b c =
      ((-b + Real.sqrt (b * b - 4 * a * c)) / (2 * a),
       (-b - Real.sqrt (b * b - 4 * a * c)) / (2 * a)) := by
  simp only [solve_quadratic1]
  split_ifs with h1 h2
  · exfalso; linarith
  · exfalso; linarith
  · rw [show (0.5 : ℝ) = 1 / 2 by norm_num, div_div, mul_one_div, mul_one_div]

/-- Witness for C5: at `(1, -3, 2)` the general formula applies and the
concrete roots are `(2, 1)`. -/
theorem solve_quadratic_pos_disc_roots_witness :
    solve_quadratic1 1 (-3) 2 =
      ((-(-3) + Real.sqrt ((-3) * (-3) - 4 * 1 * 2)) / (2 * 1),
       (-(-3) - Real.sqrt ((-3) * (-3) - 4 * 1 * 2)) / (2 * 1)) ∧
      solve_quadratic1 1 (-3) 2 = (2, 1) :=
  ⟨solve_quadratic_pos_disc_roots 1 (-3) 2 (by norm_num) (by norm_num),
   solve_quadratic1_one_neg_three_two⟩

/-- C9: the division `0.5 / a` has no guard, but whenever `a ≠ 0` every
division in `solve_quadratic` is by a nonzero quantity and the result agrees
with the exact-real solver (all entries finite); and at the input
`(a, b, c) = (0, 1, -1)`, which has `a = 0` and positive discriminant, the
returned roots are not finite real numbers (`none` in the finiteness
model). -/
theorem solve_quadratic_unguarded_division :
    (∀ a b c : ℝ, a ≠ 0 → solve_quadraticF a b c = some (solve_quadratic1 a b c)) ∧
      solve_quadraticF 0 1 (-1) = none ∧ (0 : ℝ) < 1 * 1 - 4 * 0 * (-1) := by
  refine ⟨fun a b c ha => ?_, ?_, by norm_num⟩
  · simp only [solve_quadraticF, solve_quadratic1]
    split_ifs <;> rfl
  · simp only [solve_quadraticF]
    norm_num

/-- Witness for C9 (first conjunct applied at `(1, -3, 2)`). -/
theorem solve_quadratic_unguarded_division_witness :
    solve_quadraticF 1 (-3) 2 = some (solve_quadratic1 1 (-3) 2) :=
  solve_quadratic_unguarded_division.1 1 (-3) 2 (by norm_num)

/-- C2 counterexample: at coefficients `(a, b, c, d) = (0, 1, 0, -4)` (that
is, `x^2 - 4 = 0`, with `a = 0`, `b ≠ 0` but `c = 0`) `solve_cubic` does not
delegate to `solve_quadratic`: the `mask_second_order` mask also requires
`c ≠ 0`, so the row stays all zeros, while `solve_quadratic (1, 0, -4)`
returns the roots `(2, -2)`. -/
theorem solve_cubic_skips_quadratic_when_c_zero :
    solve_cubic1 0 1 0 (-4) = (some 0, some 0, some 0) ∧
      solve_quadratic1 1 0 (-4) = (2, -2) ∧
      (solve_cubic1 0 1 0 (-4)).1 ≠ some (solve_quadratic1 1 0 (-4)).1 := by
  have h1 : solve_cubic1 0 1 0 (-4) = (some 0, some 0, some 0) := by
    norm_num [solve_cubic1]
  have h2 : solve_quadratic1 1 0 (-4) = (2, -2) := by
    simp only [solve_quadratic1]
    norm_num [sqrt_sixteen]
  refine ⟨h1, h2, ?_⟩
  rw [h1, h2]
  norm_num

/-- C2 amended: for a batch element with `a = 0`, `b ≠ 0` and additionally
`c ≠ 0`, `solve_cubic` delegates to `solve_quadratic` on `(b, c, d)`, writes
its two roots into the first two slots, and the third slot stays 0. -/
theorem solve_cubic_delegates_quadratic (b c d : ℝ) (hb : b ≠ 0) (hc : c ≠ 0) :
    solve_cubic1 0 b c d =
      (some (solve_quadratic1 b c d).1, some (solve_quadratic1 b c d).2, some 0) := by
  simp only [solve_cubic1, if_pos rfl, if_neg hb, if_neg hc, eq_self_iff_true, if_true]

/-- Witness for C2 amended, at the quadratic `x^2 - 3x + 2` (roots 2, 1). -/
theorem solve_cubic_delegates_quadratic_witness :
    (1 : ℝ) ≠ 0 ∧ (-3 : ℝ) ≠ 0 ∧
      solve_cubic1 0 1 (-3) 2 = (some 2, some 1, some 0) := by
  refine ⟨by norm_num, by norm_num, ?_⟩
  rw [solve_cubic_delegates_quadratic 1 (-3) 2 (by norm_num) (by norm_num),
    solve_quadratic1_one_neg_three_two]

/-- C6: at coefficients `(1, 0, 0, 2)` (the cubic `x^3 + 2 = 0`, which has
the single real root `-cbrt 2`), the depressed form has `Q = 0` and
`R = -1 ≠ 0`; the source computes `torch.pow(2*R, 1/3)` with the negative
base `2*R = -2`, which is `NaN` (modelled `none`), instead of the real cube
root `cbrt(2*R)` the spec requires.  The other two slots stay 0. -/
theorem solve_cubic_Q_zero_negative_R_nan :
    solve_cubic1 1 0 0 2 = (none, some 0, some 0) := by
  norm_num [solve_cubic1, torch_pow]

/-- C3 counterexample: with the default `eps = 1e-8` and `M = diag(1, 2)`,
normalizing twice differs from normalizing once — the once-normalized matrix
has bottom-right entry `2 / (2 + eps) ≈ 1` but not exactly 1, so the second
application divides again by `2 / (2 + eps) + eps ≠ 1`. -/
theorem normalize_transformation_not_idempotent :
    normalize_transformation
        (normalize_transformation (Matrix.of ![![(1 : ℝ), 0], ![0, 2]]) 1e-8) 1e-8 ≠
      normalize_transformation (Matrix.of ![![(1 : ℝ), 0], ![0, 2]]) 1e-8 := by
  have hM : (Matrix.of ![![(1 : ℝ), 0], ![0, 2]]) (Fin.last 1) (Fin.last 1) = 2 := rfl
  have h1 : normalize_transformation (Matrix.of ![![(1 : ℝ), 0], ![0, 2]]) 1e-8
      = Matrix.of fun i j => (Matrix.of ![![(1 : ℝ), 0], ![0, 2]]) i j / (2 + 1e-8) := by
    simp only [normalize_transformation, hM]
    rw [if_pos (by norm_num)]
  have hv1 : (Matrix.of fun i j =>
      (Matrix.of ![![(1 : ℝ), 0], ![0, 2]]) i j / (2 + 1e-8)) (Fin.last 1) (Fin.last 1)
      = 2 / (2 + 1e-8) := rfl
  have h2 : normalize_transformation (Matrix.of fun i j =>
        (Matrix.of ![![(1 : ℝ), 0], ![0, 2]]) i j / (2 + 1e-8)) 1e-8
      = Matrix.of fun i j =>
        (Matrix.of ![![(1 : ℝ), 0], ![0, 2]]) i j / (2 + 1e-8) / (2 / (2 + 1e-8) + 1e-8) := by
    simp only [normalize_transformation, hv1]
    rw [if_pos (by rw [abs_of_pos (by norm_num)]; norm_num)]
    rfl
  rw [h1, h2]
  intro h
  have h11 := congrFun (congrFun h 1) 1
  simp only [Matrix.of_apply, Matrix.cons_val_one, Matrix.head_cons] at h11
  norm_num at h11

/-- C3 amended: with `eps = 0` (the idealized normalizer, dividing exactly by
the bottom-right entry when it is nonzero) `normalize_transformation` is
idempotent: the once-normalized matrix is a fixed point. -/
theorem normalize_transformation_idempotent_eps_zero {m n : ℕ}
    (M : Matrix (Fin (m + 1)) (Fin (n + 1)) ℝ) :
    normalize_transformation (normalize_transformation M 0) 0
      = normalize_transformation M 0 := by
  by_cases hv : (0 : ℝ) < |M (Fin.last m) (Fin.last n)|
  · have hv0 : M (Fin.last m) (Fin.last n) ≠ 0 := by
      intro h0
      rw [h0] at hv
      simp at hv
    have h1 : normalize_transformation M 0
        = Matrix.of fun i j => M i j / M (Fin.last m) (Fin.last n) := by
      simp only [normalize_transformation, if_pos hv, add_zero]
    rw [h1]
    have h2 : (Matrix.of fun i j => M i j / M (Fin.last m) (Fin.last n))
        (Fin.last m) (Fin.last n) = 1 := by
      simp only [Matrix.of_apply]
      exact div_self hv0
    simp only [normalize_transformation, h2, add_zero, abs_one, zero_lt_one, if_true]
    ext i j
    simp [Matrix.of_apply]
  · simp only [normalize_transformation, if_neg hv]

/-- Concrete point set `[(0,0), (2,0)]`: centroid `(1, 0)`. -/
lemma centroid_sample : centroid [((0 : ℝ), (0 : ℝ)), (2, 0)] = (1, 0) := by
  norm_num [centroid]

/-- Concrete point set `[(0,0), (2,0)]`: mean distance from centroid is 1. -/
lemma meanDistCentroid_sample : meanDistCentroid [((0 : ℝ), (0 : ℝ)), (2, 0)] = 1 := by
  rw [meanDistCentroid, centroid_sample]
  norm_num [Real.sqrt_one]

/-- C7 counterexample: the degenerate one-point set `[(0, 0)]` is well-formed
(shape `(1, 1, 2)`), but its normalized points have mean distance 0 from
their centroid, while `sqrt 2 > 1` — the claimed value `sqrt 2` is missed by
more than 1, not met within tolerance. -/
theorem normalize_points_degenerate_meandist_zero :
    meanDistCentroid ((normalize_points [((0 : ℝ), (0 : ℝ))] 1e-8).1) = 0 ∧
      1 < Real.sqrt 2 := by
  constructor
  · rw [normalize_points_fst]
    norm_num [centroid, meanDistCentroid]
  · have h := Real.sqrt_lt_sqrt (by norm_num : (0 : ℝ) ≤ 1) (by norm_num : (1 : ℝ) < 2)
    rwa [Real.sqrt_one] at h

/-- C7 amended: for every nonempty point set whose mean centroid distance
`sigma = meanDistCentroid points` satisfies `0 < sigma + eps` (in particular
for the default `eps = 1e-8` always, and for `eps = 0` whenever the points
are not all equal), the normalized points have centroid exactly the origin,
and their mean distance from the centroid is `sqrt 2 * sigma / (sigma + eps)`
— equal to `sqrt 2` exactly when `eps = 0`, close to it when
`sigma >> eps`, and 0 (not `sqrt 2`) for degenerate sets with
`sigma = 0`. -/
theorem normalize_points_centroid_meandist (points : List (ℝ × ℝ)) (eps : ℝ)
    (h : 0 < points.length) (hpos : 0 < meanDistCentroid points + eps) :
    centroid ((normalize_points points eps).1) = (0, 0) ∧
      meanDistCentroid ((normalize_points points eps).1)
        = Real.sqrt 2 * meanDistCentroid points / (meanDistCentroid points + eps) :=
  ⟨centroid_normalized points eps, meanDist_normalized points eps hpos⟩

/-- Witness for C7 amended at `[(0,0), (2,0)]` with `eps = 0`: the original
mean distance is 1, so the normalized mean distance is exactly
`sqrt 2 * 1 / (1 + 0) = sqrt 2`. -/
theorem normalize_points_centroid_meandist_witness :
    0 < ([((0 : ℝ), (0 : ℝ)), (2, 0)]).length ∧
      0 < meanDistCentroid [((0 : ℝ), (0 : ℝ)), (2, 0)] + 0 ∧
      (centroid ((normalize_points [((0 : ℝ), (0 : ℝ)), (2, 0)] 0).1) = (0, 0) ∧
        meanDistCentroid ((normalize_points [((0 : ℝ), (0 : ℝ)), (2, 0)] 0).1)
          = Real.sqrt 2 * meanDistCentroid [((0 : ℝ), (0 : ℝ)), (2, 0)]
            / (meanDistCentroid [((0 : ℝ), (0 : ℝ)), (2, 0)] + 0)) :=
  ⟨by norm_num, by rw [meanDistCentroid_sample]; norm_num,
   normalize_points_centroid_meandist [((0 : ℝ), (0 : ℝ)), (2, 0)] 0 (by norm_num)
     (by rw [meanDistCentroid_sample]; norm_num)⟩

/-- C10: for every well-formed (nonempty) point set and any `eps`, the 3x3
transform returned by `normalize_points` is an isotropic similarity: bottom
row exactly `(0, 0, 1)`, both diagonal scale entries equal, and both
off-diagonal entries of the upper-left 2x2 block exactly 0. -/
theorem normalize_points_transform_isotropic (points : List (ℝ × ℝ)) (eps : ℝ)
    (h : 0 < points.length) :
    (normalize_points points eps).2 2 0 = 0 ∧
      (normalize_points points eps).2 2 1 = 0 ∧
      (normalize_points points eps).2 2 2 = 1 ∧
      (normalize_points points eps).2 0 0 = (normalize_points points eps).2 1 1 ∧
      (normalize_points points eps).2 0 1 = 0 ∧
      (normalize_points points eps).2 1 0 = 0 :=
  ⟨rfl, rfl, rfl, rfl, rfl, rfl⟩

/-- Witness for C10 at the singleton point set `[(1, 2)]`, default eps. -/
theorem normalize_points_transform_isotropic_witness :
    0 < ([((1 : ℝ), (2 : ℝ))]).length ∧
      ((normalize_points [((1 : ℝ), (2 : ℝ))] 1e-8).2 2 0 = 0 ∧
        (normalize_points [((1 : ℝ), (2 : ℝ))] 1e-8).2 2 1 = 0 ∧
        (normalize_points [((1 : ℝ), (2 : ℝ))] 1e-8).2 2 2 = 1 ∧
        (normalize_points [((1 : ℝ), (2 : ℝ))] 1e-8).2 0 0
          = (normalize_points [((1 : ℝ), (2 : ℝ))] 1e-8).2 1 1 ∧
        (normalize_points [((1 : ℝ), (2 : ℝ))] 1e-8).2 0 1 = 0 ∧
        (normalize_points [((1 : ℝ), (2 : ℝ))] 1e-8).2 1 0 = 0) :=
  ⟨by norm_num, normalize_points_transform_isotropic [((1 : ℝ), (2 : ℝ))] 1e-8 (by norm_num)⟩

/-- C1: for every well-formed pair of inputs (every batch element has exactly
7 points) and any SVD oracle, `run_7point` raises `TypeError` at the call
`solve_cubic(*coeffs)` (line 316 of the source): star-unpacking the 4-element
coefficient tensor passes four positional arguments to the one-argument
`solve_cubic`.  It therefore never returns a stack of candidate fundamental
matrices, contradicting the spec — the root-count logic and matrix
reconstruction after that line are unreachable. -/
theorem run_7point_always_raises
    (svd : List (List (List ℝ)) → Fin 9 → Fin 9 → ℝ)
    (points1 points2 : List (List (ℝ × ℝ)))
    (h1 : points1.all (fun b => b.length == 7) = true)
    (h2 : points2.all (fun b => b.length == 7) = true) :
    run_7point svd points1 points2
      = Except.error "TypeError: solve_cubic() takes 1 positional argument but 4 were given" := by
  simp only [run_7point, h1, h2, if_true]

/-- Witness for C1 at a concrete well-formed input (1 batch of 7 points) with
the zero SVD oracle. -/
theorem run_7point_always_raises_witness :
    (([[((0 : ℝ), (0 : ℝ)), (1, 0), (0, 1), (1, 1), (2, 1), (1, 2), (2, 2)]] :
        List (List (ℝ × ℝ))).all (fun b => b.length == 7) = true) ∧
      run_7point (fun _ _ _ => 0)
          [[((0 : ℝ), (0 : ℝ)), (1, 0), (0, 1), (1, 1), (2, 1), (1, 2), (2, 2)]]
          [[((0 : ℝ), (0 : ℝ)), (1, 0), (0, 1), (1, 1), (2, 1), (1, 2), (2, 2)]]
        = Except.error "TypeError: solve_cubic() takes 1 positional argument but 4 were given" :=
  ⟨rfl, run_7point_always_raises (fun _ _ _ => 0) _ _ rfl rfl⟩

/-- C8: `find_fundamental` dispatches case-insensitively — any method string
upper-casing to `7POINT` routes to `run_7point` on the two point sets, any
one upper-casing to `8POINT` routes to `run_8point` with the weights passed
through, and every other method string raises `ValueError` (never silently
defaulting to either estimator). -/
theorem find_fundamental_dispatch (P W : Type) (p1 p2 : P) (w : Option W)
    (method : String) :
    (str_upper method = "7POINT" →
      find_fundamental P W p1 p2 w method = Except.ok (Dispatched.sevenPoint p1 p2)) ∧
    (str_upper method = "8POINT" →
      find_fundamental P W p1 p2 w method = Except.ok (Dispatched.eightPoint p1 p2 w)) ∧
    (str_upper method ≠ "7POINT" → str_upper method ≠ "8POINT" →
      find_fundamental P W p1 p2 w method
        = Except.error ("ValueError: Invalid method: " ++ method
            ++ ". Supported methods are 7POINT and 8POINT.")) := by
  refine ⟨fun h => ?_, fun h => ?_, fun h7 h8 => ?_⟩
  · simp [find_fundamental, h]
  · simp [find_fundamental, h]
  · simp [find_fundamental, h7, h8]

/-- Witness for C8: mixed-case `7pOiNt` and lowercase `8point` route to the
estimators, `RANSAC` raises. -/
theorem find_fundamental_dispatch_witness :
    str_upper "7pOiNt" = "7POINT" ∧
      find_fundamental ℕ ℕ 1 2 none "7pOiNt" = Except.ok (Dispatched.sevenPoint 1 2) ∧
      str_upper "8point" = "8POINT" ∧
      find_fundamental ℕ ℕ 1 2 (some 5) "8point"
        = Except.ok (Dispatched.eightPoint 1 2 (some 5)) ∧
      find_fundamental ℕ ℕ 1 2 none "RANSAC"
        = Except.error
            "ValueError: Invalid method: RANSAC. Supported methods are 7POINT and 8POINT." :=
  ⟨by decide, (find_fundamental_dispatch ℕ ℕ 1 2 none "7pOiNt").1 (by decide),
   by decide, (find_fundamental_dispatch ℕ ℕ 1 2 (some 5) "8point").2.1 (by decide),
   (find_fundamental_dispatch ℕ ℕ 1 2 none "RANSAC").2.2 (by decide) (by decide)⟩

end Kornia
